import Mathlib

/-!
Verification of the site-resolution and root-path-cache core of
`src/wagtail/models/sites.py`, shallowly embedded in Lean 4.

The Django ORM is modelled by explicit lists of records; the queryset
pipeline of `get_site_for_hostname` (annotate with a CASE rank, filter,
order by rank) becomes a filter followed by a stable insertion sort on the
recomputed rank.  The process-wide cache store becomes a string-keyed
partial map threaded through the functions.  Machine integers of the
source (the port column) are `Int`.  Fallible Python code (raising
`Site.DoesNotExist`, `ValidationError`, `ImproperlyConfigured`) returns
`Option` / `Except`.
-/

namespace WagtailSites

/-- The fields of a `Page` record that `sites.py` reads: `url_path` and the
`language_code` of its related `locale` (`root_page__url_path`,
`root_page.locale.language_code`). -/
structure Page where
  url_path : String
  locale_language_code : String
deriving DecidableEq, Repr

/-- A row of the `Site` model: `hostname`, `port`, `site_name`,
`root_page` (eagerly joined), `is_default_site`, with the primary key `pk`. -/
structure Site where
  pk : Nat
  hostname : String
  port : Int
  site_name : String
  root_page : Page
  is_default_site : Bool
deriving DecidableEq, Repr

/-- `MATCH_HOSTNAME_PORT = 0` -/
def MATCH_HOSTNAME_PORT : Nat := 0

/-- `MATCH_HOSTNAME_DEFAULT = 1` -/
def MATCH_HOSTNAME_DEFAULT : Nat := 1

/-- `MATCH_DEFAULT = 2` -/
def MATCH_DEFAULT : Nat := 2

/-- `MATCH_HOSTNAME = 3` -/
def MATCH_HOSTNAME : Nat := 3

/-- The `Case(...)` annotation of `get_site_for_hostname`: the `When`
clauses are tried in order, the `default` branch only ever applies to rows
kept by the filter (hostname match or default site). -/
def matchRank (hostname : String) (port : Int) (s : Site) : Nat :=
  if s.hostname = hostname ∧ s.port = port then MATCH_HOSTNAME_PORT
  else if s.hostname = hostname ∧ s.is_default_site = true then MATCH_HOSTNAME_DEFAULT
  else if s.is_default_site = true then MATCH_DEFAULT
  else MATCH_HOSTNAME

/-- The ordering used by `.order_by("match")`: ascending annotated rank. -/
def rankLe (hostname : String) (port : Int) (a b : Site) : Prop :=
  matchRank hostname port a ≤ matchRank hostname port b

instance (hostname : String) (port : Int) : DecidableRel (rankLe hostname port) :=
  fun a b => inferInstanceAs (Decidable (matchRank hostname port a ≤ matchRank hostname port b))

instance (hostname : String) (port : Int) : IsTotal Site (rankLe hostname port) :=
  ⟨fun a b => Nat.le_total (matchRank hostname port a) (matchRank hostname port b)⟩

instance (hostname : String) (port : Int) : IsTrans Site (rankLe hostname port) :=
  ⟨fun _ _ _ hab hbc => Nat.le_trans hab hbc⟩

/-- The `.filter(Q(hostname=hostname) | Q(is_default_site=True))` step. -/
def candidates (db : List Site) (hostname : String) : List Site :=
  db.filter (fun s => s.hostname == hostname || s.is_default_site)

/-- The evaluated queryset of `get_site_for_hostname`: filtered candidates
ordered by ascending match rank. -/
def resolveSites (db : List Site) (hostname : String) (port : Int) : List Site :=
  List.insertionSort (rankLe hostname port) (candidates db hostname)

/-- `get_site_for_hostname(hostname, port)`.  `none` models the
`Site.DoesNotExist` raise.  `sites[len(sites) == 2]` is `sites[1]` when the
list has exactly two entries and `sites[0]` otherwise. -/
def get_site_for_hostname (db : List Site) (hostname : String) (port : Int) : Option Site :=
  match resolveSites db hostname port with
  | [] => none
  | s0 :: rest =>
    if rest = [] ∨ matchRank hostname port s0 = MATCH_HOSTNAME_PORT
        ∨ matchRank hostname port s0 = MATCH_HOSTNAME_DEFAULT then
      some s0
    else if matchRank hostname port s0 = MATCH_DEFAULT then
      match rest with
      | [s1] => some s1
      | _ => some s0
    else none

/-- `Site.root_url`: scheme inferred from well-known port numbers. -/
def Site.root_url (s : Site) : String :=
  if s.port = 80 then "http://" ++ s.hostname
  else if s.port = 443 then "https://" ++ s.hostname
  else "http://" ++ s.hostname ++ ":" ++ toString s.port

/-- The plain reading of `.order_by("-root_page__url_path", "-is_default_site",
"hostname")`: `a` precedes `b` when `a`'s root-page URL path is greater
(descending), then `a`'s default flag is greater (descending), then `a`'s
hostname is smaller or equal (ascending). -/
def rootPathPrecedes (a b : Site) : Prop :=
  b.root_page.url_path < a.root_page.url_path ∨
    (b.root_page.url_path = a.root_page.url_path ∧
      (b.is_default_site < a.is_default_site ∨
        (b.is_default_site = a.is_default_site ∧ a.hostname ≤ b.hostname)))

/-- The same ordering packaged as a lexicographic key (dual orders for the
two descending columns), giving totality, transitivity and decidability. -/
def siteKey (s : Site) : (OrderDual String) ×ₗ ((OrderDual Bool) ×ₗ String) :=
  toLex (OrderDual.toDual s.root_page.url_path, toLex (OrderDual.toDual s.is_default_site, s.hostname))

/-- The ordering relation used to sort sites in `get_site_root_paths`. -/
def siteLE (a b : Site) : Prop :=
  siteKey a ≤ siteKey b

instance : DecidableRel siteLE :=
  fun a b => inferInstanceAs (Decidable (siteKey a ≤ siteKey b))

instance : IsTotal Site siteLE :=
  ⟨fun a b => le_total (siteKey a) (siteKey b)⟩

instance : IsTrans Site siteLE :=
  ⟨fun _ _ _ hab hbc => le_trans hab hbc⟩

/-- The site list in the iteration order of `get_site_root_paths`
(`order_by("-root_page__url_path", "-is_default_site", "hostname")`). -/
def sortedSites (db : List Site) : List Site :=
  List.insertionSort siteLE db

/-- The `SiteRootPath` named tuple: `site_id root_path root_url language_code`. -/
structure SiteRootPath where
  site_id : Nat
  root_path : String
  root_url : String
  language_code : String
deriving DecidableEq, Repr

/-- A record stored in the root-paths cache.  `legacy` models the pre-2.11
three-field shape (no locale) that `len(site_record) == 3` detects; `current`
is the four-field `SiteRootPath`. -/
inductive SiteRecord where
  | legacy : Nat → String → String → SiteRecord
  | current : SiteRootPath → SiteRecord
deriving DecidableEq, Repr

/-- `len(site_record)`: the number of fields of a cached record. -/
def SiteRecord.recordLen : SiteRecord → Nat
  | .legacy _ _ _ => 3
  | .current _ => 4

/-- The cache store (`django.core.cache.cache`): a string-keyed map from key
to stored value and TTL in seconds. -/
def CacheStore : Type :=
  String → Option (List SiteRecord × Nat)

/-- `cache.get(key)` (paired with the TTL the value was stored with). -/
def cache_get (c : CacheStore) (k : String) : Option (List SiteRecord × Nat) :=
  c k

/-- `cache.set(key, value, ttl)`. -/
def cache_set (c : CacheStore) (k : String) (v : List SiteRecord) (ttl : Nat) : CacheStore :=
  fun k2 => if k2 = k then some (v, ttl) else c k2

/-- `cache.delete(key)`. -/
def cache_delete (c : CacheStore) (k : String) : CacheStore :=
  fun k2 => if k2 = k then none else c k2

/-- The empty cache store. -/
def emptyCache : CacheStore :=
  fun _ => none

/-- The entries one site contributes inside the loop of
`get_site_root_paths`.  `Page.get_translations(inclusive=True)` belongs to
the `Page` model, which is not part of `sites.py`; per the spec it yields
the available translations of the content root (inclusive of itself), so it
is abstracted as the `translations` parameter. -/
def siteEntries (i18n : Bool) (translations : Page → List Page) (site : Site) :
    List SiteRecord :=
  if i18n then
    (translations site.root_page).map (fun rp =>
      .current ⟨site.pk, rp.url_path, site.root_url, rp.locale_language_code⟩)
  else
    [.current ⟨site.pk, site.root_page.url_path, site.root_url,
      site.root_page.locale_language_code⟩]

/-- The recomputation loop of `get_site_root_paths`: sites in
`order_by("-root_page__url_path", "-is_default_site", "hostname")` order,
each contributing its entries. -/
def computeRootPaths (i18n : Bool) (translations : Page → List Page) (db : List Site) :
    List SiteRecord :=
  (sortedSites db).flatMap (siteEntries i18n translations)

/-- The cache-miss branch of `get_site_root_paths`: recompute and store
under the fixed key with a 3600-second TTL. -/
def recomputeRootPaths (i18n : Bool) (translations : Page → List Page) (db : List Site)
    (c : CacheStore) : List SiteRecord × CacheStore :=
  let result := computeRootPaths i18n translations db
  (result, cache_set c "wagtail_site_root_paths" result 3600)

/-- `Site.get_site_root_paths()`: serve the cached value unless it is absent
or any cached record still has the legacy three-field shape, in which case
recompute and re-cache. -/
def get_site_root_paths (i18n : Bool) (translations : Page → List Page) (db : List Site)
    (c : CacheStore) : List SiteRecord × CacheStore :=
  match cache_get c "wagtail_site_root_paths" with
  | none => recomputeRootPaths i18n translations db c
  | some (result, _) =>
    if result.any (fun r => r.recordLen == 3) then
      recomputeRootPaths i18n translations db c
    else
      (result, c)

/-- Modelled from the spec: the push-based invalidation hooks ("any
create/update/delete of a tenant record must evict this cache entry
immediately") are registered outside `sites.py` (signal handlers on the
`Site` model), so the three mutations are modelled here as the table change
plus the prescribed `cache.delete` of the fixed key.  Creation appends the
row. -/
def create_site (s : Site) (db : List Site) (c : CacheStore) : List Site × CacheStore :=
  (db ++ [s], cache_delete c "wagtail_site_root_paths")

/-- Modelled from the spec: update of the row with `s.pk`, evicting the
root-paths cache entry (see `create_site`). -/
def update_site (s : Site) (db : List Site) (c : CacheStore) : List Site × CacheStore :=
  (db.map (fun t => if t.pk = s.pk then s else t),
    cache_delete c "wagtail_site_root_paths")

/-- Modelled from the spec: deletion of the row with the given primary key,
evicting the root-paths cache entry (see `create_site`). -/
def delete_site (pk : Nat) (db : List Site) (c : CacheStore) : List Site × CacheStore :=
  (db.filter (fun t => t.pk != pk), cache_delete c "wagtail_site_root_paths")

/-- Errors of `Site.clean_fields`: a `ValidationError` carrying the message
for the `is_default_site` field, or Django's `MultipleObjectsReturned`
(re-raised unchanged by the source). -/
inductive CleanError where
  | validationError : String → CleanError
  | multipleObjectsReturned : CleanError
deriving DecidableEq, Repr

/-- The interpolated message of the `ValidationError` raised by
`Site.clean_fields`. -/
def default_site_conflict_message (hostname : String) : String :=
  hostname ++ " is already configured as the default site." ++
    " You must unset that before you can save this site as default."

/-- `Site.clean_fields`: the default-site uniqueness check of the source.
`Site.objects.get(is_default_site=True)` is the filter of the table by the
flag: zero rows is `DoesNotExist` (passed over), two or more rows re-raise
`MultipleObjectsReturned`, one row `d` triggers the `ValidationError` when
`self` claims the flag with a different primary key.  (`super().clean_fields`
is Django's per-field validation, framework code outside this repository,
and adds no behaviour to the default-flag check modelled here.) -/
def Site.clean_fields (self : Site) (db : List Site) : Except CleanError Unit :=
  match db.filter (fun s => s.is_default_site) with
  | [] => .ok ()
  | [d] =>
    if self.is_default_site = true ∧ self.pk ≠ d.pk then
      .error (.validationError (default_site_conflict_message d.hostname))
    else
      .ok ()
  | _ => .error .multipleObjectsReturned

/-- `ImproperlyConfigured` with its message. -/
inductive ConfigError where
  | improperlyConfigured : String → ConfigError
deriving DecidableEq, Repr

/-- The part of Django settings that `get_site_user_model` reads;
`none` models the `SITE_USER_MODEL` attribute being absent
(`AttributeError` on access). -/
structure SiteUserSettings where
  SITE_USER_MODEL : Option String
deriving DecidableEq, Repr

/-- The exceptions of `django.apps.apps.get_model` relevant to
`get_site_user_model`: `ValueError` for a string not of the
`"app_label.model_name"` shape, `LookupError` for a model that is not
installed. -/
inductive GetModelError where
  | valueError : GetModelError
  | lookupError : GetModelError
deriving DecidableEq, Repr

/-- Django's `apps.get_model(name, require_ready=False)` over the installed
model registry (a list of `(app_label, model_name)` pairs): splitting on
`"."` must give exactly two parts (else `ValueError`), and the pair must be
installed (else `LookupError`).  Framework code, modelled only as far as the
exception shapes `get_site_user_model` catches. -/
def apps_get_model (installed : List (String × String)) (name : String) :
    Except GetModelError (String × String) :=
  match name.splitOn "." with
  | [app_label, model_name] =>
    if (app_label, model_name) ∈ installed then
      .ok (app_label, model_name)
    else
      .error .lookupError
  | _ => .error .valueError

/-- `get_site_user_model()`: resolve `settings.SITE_USER_MODEL` through
`apps.get_model`, converting `AttributeError` / `ValueError` / `LookupError`
into descriptive `ImproperlyConfigured` errors (messages as in the source,
whitespace of the line-continued third message normalised). -/
def get_site_user_model (installed : List (String × String))
    (settings : SiteUserSettings) : Except ConfigError (String × String) :=
  match settings.SITE_USER_MODEL with
  | none =>
    .error (.improperlyConfigured
      "Please configure settings.SITE_USER_MODEL that should subclass the AbstractSiteUser")
  | some name =>
    match apps_get_model installed name with
    | .ok m => .ok m
    | .error .valueError =>
      .error (.improperlyConfigured "settings must be of the form 'app_label.model_name'")
    | .error .lookupError =>
      .error (.improperlyConfigured
        ("settings refers to model '" ++ name ++ "' that has not been installed"))

/-- Importing `sites.py`: the only module-level statement touching the
site-user model is `SiteUser = None`; `get_site_user_model` is not called
at import time, so the import succeeds for every settings value and leaves
the cached model unset. -/
def moduleImport (_installed : List (String × String)) (_settings : SiteUserSettings) :
    Except ConfigError (Option (String × String)) :=
  .ok none

/-- The lazy resolution `SiteUser = SiteUser or get_site_user_model()`
executed inside `AbstractSiteUser.find_for_request`, i.e. on first use. -/
def resolveSiteUserModel (cached : Option (String × String))
    (installed : List (String × String)) (settings : SiteUserSettings) :
    Except ConfigError (String × String) :=
  match cached with
  | some m => .ok m
  | none => get_site_user_model installed settings

/-- The three misconfiguration shapes of the spec: setting absent, not of
the `"app_label.model_name"` shape, or referring to a model that is not
installed. -/
def misconfiguredSiteUserSetting (installed : List (String × String))
    (settings : SiteUserSettings) : Bool :=
  match settings.SITE_USER_MODEL with
  | none => true
  | some name =>
    match name.splitOn "." with
    | [app_label, model_name] => !((app_label, model_name) ∈ installed : Bool)
    | _ => true

/-- The fields of an HTTP request that `Site.find_for_request` reads:
`get_host()` (raw Host header), `get_port()` (effective port), and the
`_wagtail_site` memo attribute (`none` = attribute absent). -/
structure WagtailRequest where
  host_header : String
  request_port : Int
  wagtail_site : Option (Option Site)
deriving DecidableEq, Repr

/-- Django's `split_domain_port` (framework helper, not part of this
repository): split the raw Host header into domain and trailing port text at
the last colon.  The validation regex, lowercasing and IPv6-bracket handling
of the framework original are omitted; no settled claim exercises them. -/
def split_domain_port (host : String) : String × String :=
  match (host.splitOn ":").reverse with
  | [] => (host, "")
  | [_] => (host, "")
  | portPart :: domainParts => (String.intercalate ":" domainParts.reverse, portPart)

/-- `Site._find_for_request`: resolve via `get_site_for_hostname`, turning
`Site.DoesNotExist` into `None` (old SiteMiddleware behaviour). -/
def Site._find_for_request (r : WagtailRequest) (db : List Site) : Option Site :=
  get_site_for_hostname db (split_domain_port r.host_header).1 r.request_port

/-- `Site.find_for_request`: `None` request short-circuits to `None`;
otherwise the `_wagtail_site` memo is served if present, else the site is
resolved once and memoised on the request.  The result carries the updated
request and the number of tenant-table queries performed. -/
def Site.find_for_request (request : Option WagtailRequest) (db : List Site) :
    Option Site × Option WagtailRequest × Nat :=
  match request with
  | none => (none, none, 0)
  | some r =>
    match r.wagtail_site with
    | some memo => (memo, some r, 0)
    | none =>
      let site := Site._find_for_request r db
      (site, some { r with wagtail_site := some site }, 1)

/-!  Helper lemmas about the resolver pipeline. -/

theorem matchRank_le_three (hostname : String) (port : Int) (s : Site) :
    matchRank hostname port s ≤ 3 := by
  unfold matchRank MATCH_HOSTNAME_PORT MATCH_HOSTNAME_DEFAULT MATCH_DEFAULT MATCH_HOSTNAME
  split
  · omega
  · split
    · omega
    · split <;> omega

theorem matchRank_of_exact {hostname : String} {port : Int} {s : Site}
    (hh : s.hostname = hostname) (hp : s.port = port) :
    matchRank hostname port s = MATCH_HOSTNAME_PORT := by
  simp [matchRank, hh, hp]

theorem matchRank_zero_elim {hostname : String} {port : Int} {s : Site}
    (h0 : matchRank hostname port s = MATCH_HOSTNAME_PORT) :
    s.hostname = hostname ∧ s.port = port := by
  unfold matchRank MATCH_HOSTNAME_PORT MATCH_HOSTNAME_DEFAULT MATCH_DEFAULT MATCH_HOSTNAME at h0
  split at h0
  · assumption
  · split at h0
    · omega
    · split at h0 <;> omega

theorem matchRank_of_default_other {hostname : String} {port : Int} {s : Site}
    (hdef : s.is_default_site = true) (hh : s.hostname ≠ hostname) :
    matchRank hostname port s = MATCH_DEFAULT := by
  simp [matchRank, hh, hdef]

theorem matchRank_two_elim {hostname : String} {port : Int} {s : Site}
    (h2 : matchRank hostname port s = MATCH_DEFAULT) :
    s.is_default_site = true ∧ s.hostname ≠ hostname := by
  unfold matchRank MATCH_HOSTNAME_PORT MATCH_HOSTNAME_DEFAULT MATCH_DEFAULT MATCH_HOSTNAME at h2
  split at h2
  · omega
  · rename_i hc1
    split at h2
    · omega
    · rename_i hc2
      split at h2
      · rename_i hdef
        refine ⟨hdef, fun hh => hc2 ⟨hh, hdef⟩⟩
      · omega

theorem matchRank_of_plain_hostname {hostname : String} {port : Int} {s : Site}
    (hdef : s.is_default_site = false) (hnp : ¬(s.hostname = hostname ∧ s.port = port)) :
    matchRank hostname port s = MATCH_HOSTNAME := by
  simp [matchRank, hnp, hdef]

theorem matchRank_three_elim {hostname : String} {port : Int} {s : Site}
    (h3 : matchRank hostname port s = MATCH_HOSTNAME) :
    s.is_default_site = false ∧ ¬(s.hostname = hostname ∧ s.port = port) := by
  unfold matchRank MATCH_HOSTNAME_PORT MATCH_HOSTNAME_DEFAULT MATCH_DEFAULT MATCH_HOSTNAME at h3
  split at h3
  · omega
  · rename_i hc1
    split at h3
    · omega
    · split at h3
      · omega
      · rename_i hdef
        exact ⟨by simpa using hdef, hc1⟩

theorem mem_candidates {db : List Site} {hostname : String} {s : Site} :
    s ∈ candidates db hostname ↔ s ∈ db ∧ (s.hostname = hostname ∨ s.is_default_site = true) := by
  simp [candidates]

theorem resolveSites_perm (db : List Site) (hostname : String) (port : Int) :
    List.Perm (resolveSites db hostname port) (candidates db hostname) :=
  List.perm_insertionSort _ _

theorem mem_resolveSites {db : List Site} {hostname : String} {port : Int} {s : Site} :
    s ∈ resolveSites db hostname port ↔ s ∈ candidates db hostname :=
  (resolveSites_perm db hostname port).mem_iff

theorem length_resolveSites (db : List Site) (hostname : String) (port : Int) :
    (resolveSites db hostname port).length = (candidates db hostname).length :=
  (resolveSites_perm db hostname port).length_eq

theorem resolveSites_sorted (db : List Site) (hostname : String) (port : Int) :
    List.Sorted (rankLe hostname port) (resolveSites db hostname port) :=
  List.sorted_insertionSort _ _

theorem head_rank_min {db : List Site} {hostname : String} {port : Int} {s0 : Site}
    {rest : List Site} (hE : resolveSites db hostname port = s0 :: rest) :
    ∀ s ∈ resolveSites db hostname port, matchRank hostname port s0 ≤ matchRank hostname port s := by
  intro s hs
  rw [hE] at hs
  rcases List.mem_cons.1 hs with h | h
  · exact h ▸ le_refl _
  · have hsorted := resolveSites_sorted db hostname port
    rw [hE] at hsorted
    exact List.rel_of_sorted_cons hsorted s h

/-- `siteLE` (the sort key actually used) agrees with the plain reading of
the three-column ordering. -/
theorem siteLE_iff (a b : Site) : siteLE a b ↔ rootPathPrecedes a b := by
  simp only [siteLE, siteKey, rootPathPrecedes, Prod.Lex.le_iff]
  simp [eq_comm]

/-!  Concrete fixtures used by the witness and counterexample theorems. -/

/-- A root page for fixtures. -/
def homePage : Page := ⟨"/home/", "en"⟩

/-- Fixture: hostname-only site on example.com. -/
def exampleSite : Site := ⟨1, "example.com", 8080, "", homePage, false⟩

/-- Fixture: second hostname-only site on example.com. -/
def exampleSite2 : Site := ⟨2, "example.com", 9090, "", homePage, false⟩

/-- Fixture: the default site, on a different hostname. -/
def defaultSite : Site := ⟨3, "other.com", 80, "", homePage, true⟩

/-- Fixture: site on hostname "a", port 81. -/
def portSiteA : Site := ⟨4, "a", 81, "", homePage, false⟩

/-- Fixture: site on hostname "a", port 82. -/
def portSiteB : Site := ⟨5, "a", 82, "", homePage, false⟩

/-- Fixture: identity translation function (a root page is its own only
translation). -/
def selfTranslations : Page → List Page := fun p => [p]

/-!  Claim theorems. -/

/-- C9: the derived base URL is `http://hostname` for port 80,
`https://hostname` for port 443, and `http://hostname:port` for every other
port. -/
theorem root_url_by_port (s : Site) :
    (s.port = 80 → s.root_url = "http://" ++ s.hostname) ∧
    (s.port = 443 → s.root_url = "https://" ++ s.hostname) ∧
    (s.port ≠ 80 → s.port ≠ 443 →
      s.root_url = "http://" ++ s.hostname ++ ":" ++ toString s.port) := by
  refine ⟨fun h => ?_, fun h => ?_, fun h h2 => ?_⟩ <;> simp [Site.root_url, h, *]

/-- Witness for C9 at ports 80, 443 and 8000. -/
theorem root_url_by_port_witness :
    ((Site.mk 1 "host" 80 "" homePage false).root_url = "http://" ++ "host") ∧
    ((Site.mk 1 "host" 443 "" homePage false).root_url = "https://" ++ "host") ∧
    ((Site.mk 1 "host" 8000 "" homePage false).root_url
      = "http://" ++ "host" ++ ":" ++ toString (8000 : Int)) :=
  ⟨(root_url_by_port _).1 rfl, (root_url_by_port _).2.1 rfl,
    (root_url_by_port _).2.2 (by decide) (by decide)⟩

/-- C10: `Site.find_for_request` with a `None` request returns `None` for
every tenant-table state, performing zero tenant-table queries and
returning normally. -/
theorem find_for_request_none (db : List Site) :
    Site.find_for_request none db = (none, none, 0) :=
  rfl

/-- C5: validating a site that claims `is_default_site` while a different
site (different primary key) is the stored default raises the
`ValidationError` whose message names the stored default's hostname;
validating the stored default itself (same primary key) succeeds. -/
theorem clean_fields_default_conflict (self d : Site) (db : List Site)
    (hfilter : db.filter (fun s => s.is_default_site) = [d])
    (hself : self.is_default_site = true) :
    (self.pk ≠ d.pk →
      Site.clean_fields self db =
        .error (.validationError (default_site_conflict_message d.hostname))) ∧
    (self.pk = d.pk → Site.clean_fields self db = .ok ()) := by
  constructor <;> intro h <;> simp [Site.clean_fields, hfilter, hself, h]

/-- Witness for C5: `defaultSite` (pk 3) is the stored default; a new site
with pk 9 claiming the flag is rejected with the message naming
"other.com", while re-validating `defaultSite` itself succeeds. -/
theorem clean_fields_default_conflict_witness :
    ([exampleSite, defaultSite].filter (fun s => s.is_default_site) = [defaultSite] ∧
      (9 : Nat) ≠ 3) ∧
    Site.clean_fields ⟨9, "new.example.com", 80, "", homePage, true⟩
        [exampleSite, defaultSite] =
      .error (.validationError (default_site_conflict_message "other.com")) ∧
    Site.clean_fields defaultSite [exampleSite, defaultSite] = .ok () :=
  ⟨⟨rfl, by decide⟩,
    (clean_fields_default_conflict ⟨9, "new.example.com", 80, "", homePage, true⟩
      defaultSite [exampleSite, defaultSite] rfl rfl).1 (by decide),
    (clean_fields_default_conflict defaultSite defaultSite
      [exampleSite, defaultSite] rfl rfl).2 rfl⟩

/-- C3: each tenant mutation (create, update, delete) evicts the
"wagtail_site_root_paths" cache entry, so the next `get_site_root_paths`
recomputes from the mutated tenant table. -/
theorem tenant_mutation_invalidates_root_paths_cache (i18n : Bool)
    (translations : Page → List Page) (s : Site) (pk : Nat) (db : List Site)
    (c : CacheStore) :
    (cache_get (create_site s db c).2 "wagtail_site_root_paths" = none ∧
      (get_site_root_paths i18n translations (create_site s db c).1 (create_site s db c).2).1 =
        computeRootPaths i18n translations (create_site s db c).1) ∧
    (cache_get (update_site s db c).2 "wagtail_site_root_paths" = none ∧
      (get_site_root_paths i18n translations (update_site s db c).1 (update_site s db c).2).1 =
        computeRootPaths i18n translations (update_site s db c).1) ∧
    (cache_get (delete_site pk db c).2 "wagtail_site_root_paths" = none ∧
      (get_site_root_paths i18n translations (delete_site pk db c).1 (delete_site pk db c).2).1 =
        computeRootPaths i18n translations (delete_site pk db c).1) := by
  refine ⟨⟨?_, ?_⟩, ⟨?_, ?_⟩, ⟨?_, ?_⟩⟩ <;>
    simp [create_site, update_site, delete_site, cache_get, cache_delete,
      get_site_root_paths, recomputeRootPaths]

/-- C8: a cached value containing a legacy three-field record is treated as
a miss: the entry list is recomputed from the tenant table, stored under the
fixed key with a 3600-second TTL, and the fresh list is returned. -/
theorem legacy_cache_shape_forces_recompute (i18n : Bool)
    (translations : Page → List Page) (db : List Site) (c : CacheStore)
    (result : List SiteRecord) (ttl : Nat)
    (hc : cache_get c "wagtail_site_root_paths" = some (result, ttl))
    (hl : ∃ r ∈ result, r.recordLen = 3) :
    get_site_root_paths i18n translations db c =
      (computeRootPaths i18n translations db,
        cache_set c "wagtail_site_root_paths" (computeRootPaths i18n translations db) 3600) := by
  have hany : result.any (fun r => r.recordLen == 3) = true := by
    rcases hl with ⟨r, hr, h3⟩
    exact List.any_eq_true.2 ⟨r, hr, by simp [h3]⟩
  simp [get_site_root_paths, hc, hany, recomputeRootPaths]

/-- Witness for C8 at a concrete legacy-shaped cache. -/
theorem legacy_cache_shape_forces_recompute_witness :
    (cache_get (cache_set emptyCache "wagtail_site_root_paths"
        [SiteRecord.legacy 9 "/x/" "http://x"] 50) "wagtail_site_root_paths" =
      some ([SiteRecord.legacy 9 "/x/" "http://x"], 50) ∧
      (∃ r ∈ [SiteRecord.legacy 9 "/x/" "http://x"], r.recordLen = 3)) ∧
    get_site_root_paths false selfTranslations [exampleSite]
        (cache_set emptyCache "wagtail_site_root_paths"
          [SiteRecord.legacy 9 "/x/" "http://x"] 50) =
      (computeRootPaths false selfTranslations [exampleSite],
        cache_set (cache_set emptyCache "wagtail_site_root_paths"
            [SiteRecord.legacy 9 "/x/" "http://x"] 50)
          "wagtail_site_root_paths"
          (computeRootPaths false selfTranslations [exampleSite]) 3600) :=
  ⟨⟨rfl, ⟨SiteRecord.legacy 9 "/x/" "http://x", by simp, rfl⟩⟩,
    legacy_cache_shape_forces_recompute false selfTranslations [exampleSite] _
      [SiteRecord.legacy 9 "/x/" "http://x"] 50 rfl
      ⟨SiteRecord.legacy 9 "/x/" "http://x", by simp, rfl⟩⟩

/-- C7: on recomputation, `get_site_root_paths` enumerates the tenants in
`(-root_page__url_path, -is_default_site, hostname)` order — content-root
URL path descending, default flag descending, hostname ascending — each
tenant contributing its entries in place, so the deepest content roots come
first. -/
theorem root_paths_ordering (i18n : Bool) (translations : Page → List Page)
    (db : List Site) (c : CacheStore)
    (hmiss : cache_get c "wagtail_site_root_paths" = none) :
    List.Sorted rootPathPrecedes (sortedSites db) ∧
    (get_site_root_paths i18n translations db c).1 =
      (sortedSites db).flatMap (siteEntries i18n translations) ∧
    (get_site_root_paths false translations db c).1 =
      (sortedSites db).map (fun site => SiteRecord.current
        ⟨site.pk, site.root_page.url_path, site.root_url,
          site.root_page.locale_language_code⟩) := by
  refine ⟨?_, ?_, ?_⟩
  · exact (List.sorted_insertionSort siteLE db).imp (fun hab => (siteLE_iff _ _).1 hab)
  · simp [get_site_root_paths, hmiss, recomputeRootPaths, computeRootPaths]
  · rw [show (get_site_root_paths false translations db c).1 =
        (sortedSites db).flatMap (siteEntries false translations) by
      simp [get_site_root_paths, hmiss, recomputeRootPaths, computeRootPaths]]
    induction sortedSites db with
    | nil => rfl
    | cons a t ih => simp [List.flatMap_cons, siteEntries, ih]

/-- Witness for C7 on a concrete two-site table and an empty cache. -/
theorem root_paths_ordering_witness :
    List.Sorted rootPathPrecedes (sortedSites [exampleSite, defaultSite]) ∧
    (get_site_root_paths false selfTranslations [exampleSite, defaultSite] emptyCache).1 =
      (sortedSites [exampleSite, defaultSite]).flatMap (siteEntries false selfTranslations) ∧
    (get_site_root_paths false selfTranslations [exampleSite, defaultSite] emptyCache).1 =
      (sortedSites [exampleSite, defaultSite]).map (fun site => SiteRecord.current
        ⟨site.pk, site.root_page.url_path, site.root_url,
          site.root_page.locale_language_code⟩) :=
  root_paths_ordering false selfTranslations [exampleSite, defaultSite] emptyCache rfl

/-- C4 counterexample: with `SITE_USER_MODEL` absent (a misconfiguration),
the module import succeeds — no configuration error is raised at process
startup — even though resolving the model would raise the descriptive
error.  The claim that the error is raised "at process startup ... never
deferred to first use" is therefore false of this code. -/
theorem misconfigured_site_user_model_startup_succeeds :
    misconfiguredSiteUserSetting [] ⟨none⟩ = true ∧
    moduleImport [] ⟨none⟩ = .ok none ∧
    get_site_user_model [] ⟨none⟩ =
      .error (.improperlyConfigured
        "Please configure settings.SITE_USER_MODEL that should subclass the AbstractSiteUser") :=
  ⟨rfl, rfl, rfl⟩

/-- C4 (amended): a misconfigured `SITE_USER_MODEL` (absent, malformed, or
not installed) never fails at import time; instead the first resolution of
the site-user model — `SiteUser = SiteUser or get_site_user_model()` inside
`AbstractSiteUser.find_for_request` — raises a descriptive
`ImproperlyConfigured` error. -/
theorem misconfigured_site_user_model_errors_on_first_use
    (installed : List (String × String)) (settings : SiteUserSettings)
    (h : misconfiguredSiteUserSetting installed settings = true) :
    moduleImport installed settings = .ok none ∧
    ∃ msg, get_site_user_model installed settings = .error (.improperlyConfigured msg) ∧
      resolveSiteUserModel none installed settings = .error (.improperlyConfigured msg) := by
  refine ⟨rfl, ?_⟩
  suffices hs : ∃ msg,
      get_site_user_model installed settings = .error (.improperlyConfigured msg) by
    obtain ⟨msg, hmsg⟩ := hs
    exact ⟨msg, hmsg, hmsg⟩
  rcases hset : settings.SITE_USER_MODEL with _ | name
  · exact ⟨"Please configure settings.SITE_USER_MODEL that should subclass the AbstractSiteUser",
      by simp [get_site_user_model, hset]⟩
  · rcases hsp : name.splitOn "." with _ | ⟨a, _ | ⟨b, _ | ⟨c, t⟩⟩⟩
    · exact ⟨"settings must be of the form 'app_label.model_name'",
        by simp [get_site_user_model, apps_get_model, hset, hsp]⟩
    · exact ⟨"settings must be of the form 'app_label.model_name'",
        by simp [get_site_user_model, apps_get_model, hset, hsp]⟩
    · have hmem : (a, b) ∉ installed := by
        simpa [misconfiguredSiteUserSetting, hset, hsp] using h
      exact ⟨"settings refers to model '" ++ name ++ "' that has not been installed",
        by simp [get_site_user_model, apps_get_model, hset, hsp, hmem]⟩
    · exact ⟨"settings must be of the form 'app_label.model_name'",
        by simp [get_site_user_model, apps_get_model, hset, hsp]⟩

/-- Witness for the amended C4 with the setting absent. -/
theorem misconfigured_site_user_model_witness :
    misconfiguredSiteUserSetting [] ⟨none⟩ = true ∧
    (moduleImport [] ⟨none⟩ = .ok none ∧
      ∃ msg, get_site_user_model [] ⟨none⟩ = .error (.improperlyConfigured msg) ∧
        resolveSiteUserModel none [] ⟨none⟩ = .error (.improperlyConfigured msg)) :=
  ⟨rfl, misconfigured_site_user_model_errors_on_first_use [] ⟨none⟩ rfl⟩

/-- C6: under the `(hostname, port)` uniqueness constraint of the table, an
exact hostname-and-port match outranks every other candidate: the resolver
returns exactly the site whose hostname and port equal the request's.  In
particular, for distinct sites sharing a hostname with distinct ports, each
port resolves to its own site. -/
theorem exact_match_wins (db : List Site) (hostname : String) (port : Int) (T1 : Site)
    (huniq : ∀ s1 ∈ db, ∀ s2 ∈ db,
      s1.hostname = s2.hostname → s1.port = s2.port → s1 = s2)
    (hmem : T1 ∈ db) (hh : T1.hostname = hostname) (hp : T1.port = port) :
    get_site_for_hostname db hostname port = some T1 := by
  have hT1sites : T1 ∈ resolveSites db hostname port :=
    mem_resolveSites.2 (mem_candidates.2 ⟨hmem, Or.inl hh⟩)
  obtain ⟨s0, rest, hE⟩ : ∃ s0 rest, resolveSites db hostname port = s0 :: rest := by
    cases hC : resolveSites db hostname port with
    | nil => rw [hC] at hT1sites; cases hT1sites
    | cons s0 rest => exact ⟨s0, rest, rfl⟩
  have hrank0 : matchRank hostname port s0 = MATCH_HOSTNAME_PORT := by
    have hle := head_rank_min hE T1 hT1sites
    rw [matchRank_of_exact hh hp] at hle
    unfold MATCH_HOSTNAME_PORT at hle ⊢
    omega
  obtain ⟨hs0h, hs0p⟩ := matchRank_zero_elim hrank0
  have hs0db : s0 ∈ db := by
    have hm : s0 ∈ resolveSites db hostname port := by
      rw [hE]; exact List.mem_cons_self _ _
    exact (mem_candidates.1 (mem_resolveSites.1 hm)).1
  have hs0T1 : s0 = T1 := huniq s0 hs0db T1 hmem (hs0h.trans hh.symm) (hs0p.trans hp.symm)
  simp only [get_site_for_hostname, hE]
  rw [if_pos (Or.inr (Or.inl hrank0)), hs0T1]

/-- Witness for C6: two sites share hostname "a" with ports 81 and 82; each
port resolves to its own site. -/
theorem exact_match_wins_witness :
    ((∀ s1 ∈ [portSiteA, portSiteB], ∀ s2 ∈ [portSiteA, portSiteB],
        s1.hostname = s2.hostname → s1.port = s2.port → s1 = s2) ∧
      portSiteA ∈ [portSiteA, portSiteB] ∧ portSiteA.hostname = "a" ∧
      portSiteA.port = 81) ∧
    get_site_for_hostname [portSiteA, portSiteB] "a" 81 = some portSiteA ∧
    get_site_for_hostname [portSiteA, portSiteB] "a" 82 = some portSiteB :=
  ⟨⟨by decide, by decide, by decide, by decide⟩,
    exact_match_wins [portSiteA, portSiteB] "a" 81 portSiteA (by decide)
      (by decide) (by decide) (by decide),
    exact_match_wins [portSiteA, portSiteB] "a" 82 portSiteB (by decide)
      (by decide) (by decide) (by decide)⟩

/-- C1: when the best-ranked candidate is the default site with a
non-matching hostname (no exact hostname+port match and no
hostname-matching default exist), the resolver returns the single
hostname-matching site when exactly one exists, and the default site when
there are zero or two-or-more hostname matches. -/
theorem default_prefers_single_hostname_match (db : List Site) (hostname : String)
    (port : Int) (d : Site)
    (hnodup : db.Nodup) (hd : d ∈ db) (hdef : d.is_default_site = true)
    (hdh : d.hostname ≠ hostname)
    (huniq : ∀ s ∈ db, s.is_default_site = true → s = d)
    (hnoexact : ∀ s ∈ db, s.hostname = hostname → s.port ≠ port) :
    (∀ m, db.filter (fun s => s.hostname == hostname) = [m] →
      get_site_for_hostname db hostname port = some m) ∧
    ((db.filter (fun s => s.hostname == hostname)).length ≠ 1 →
      get_site_for_hostname db hostname port = some d) := by
  have hdcand : d ∈ candidates db hostname := mem_candidates.2 ⟨hd, Or.inr hdef⟩
  have hcand_char : ∀ s ∈ candidates db hostname, s ≠ d →
      s.hostname = hostname ∧ s.is_default_site = false ∧ s ∈ db := by
    intro s hs hne
    obtain ⟨hsdb, hcase⟩ := mem_candidates.1 hs
    have hndef : s.is_default_site = false := by
      cases hsd : s.is_default_site with
      | false => rfl
      | true => exact absurd (huniq s hsdb hsd) hne
    rcases hcase with hmatch | hdefault
    · exact ⟨hmatch, hndef, hsdb⟩
    · rw [hdefault] at hndef; cases hndef
  have hrank_d : matchRank hostname port d = MATCH_DEFAULT :=
    matchRank_of_default_other hdef hdh
  have hrank_other : ∀ s ∈ candidates db hostname, s ≠ d →
      matchRank hostname port s = MATCH_HOSTNAME := by
    intro s hs hne
    obtain ⟨hmatch, hndef, hsdb⟩ := hcand_char s hs hne
    exact matchRank_of_plain_hostname hndef (fun hc => hnoexact s hsdb hc.1 hc.2)
  have hcand_nodup : (candidates db hostname).Nodup := hnodup.filter _
  have herase : List.Perm (candidates db hostname)
      (d :: db.filter (fun s => s.hostname == hostname)) := by
    have h1 : List.Perm (candidates db hostname)
        (d :: (candidates db hostname).erase d) := List.perm_cons_erase hdcand
    have h2 : List.Perm ((candidates db hostname).erase d)
        (db.filter (fun s => s.hostname == hostname)) := by
      rw [List.perm_ext_iff_of_nodup (hcand_nodup.erase d) (hnodup.filter _)]
      intro x
      constructor
      · intro hx
        have hxc : x ∈ candidates db hostname := List.mem_of_mem_erase hx
        have hxne : x ≠ d := ((List.Nodup.mem_erase_iff hcand_nodup).1 hx).1
        obtain ⟨hmatch, _, hxdb⟩ := hcand_char x hxc hxne
        simp [List.mem_filter, hxdb, hmatch]
      · intro hx
        obtain ⟨hxdb, hxmatch⟩ := List.mem_filter.1 hx
        have hxh : x.hostname = hostname := by simpa using hxmatch
        have hxne : x ≠ d := by
          intro he; rw [he] at hxh; exact hdh hxh
        exact (List.Nodup.mem_erase_iff hcand_nodup).2
          ⟨hxne, mem_candidates.2 ⟨hxdb, Or.inl hxh⟩⟩
    exact h1.trans (h2.cons d)
  have hsites_perm : List.Perm (resolveSites db hostname port)
      (d :: db.filter (fun s => s.hostname == hostname)) :=
    (resolveSites_perm db hostname port).trans herase
  have hsites_len : (resolveSites db hostname port).length =
      (db.filter (fun s => s.hostname == hostname)).length + 1 := by
    simpa using hsites_perm.length_eq
  obtain ⟨s0, rest, hE⟩ : ∃ s0 rest, resolveSites db hostname port = s0 :: rest := by
    cases hC : resolveSites db hostname port with
    | nil => rw [hC] at hsites_len; simp at hsites_len
    | cons s0 rest => exact ⟨s0, rest, rfl⟩
  have hs0 : s0 = d := by
    have hs0mem : s0 ∈ resolveSites db hostname port := by
      rw [hE]; exact List.mem_cons_self _ _
    have hs0cand : s0 ∈ candidates db hostname := mem_resolveSites.1 hs0mem
    by_contra hne
    have h3 := hrank_other s0 hs0cand hne
    have hdmem : d ∈ resolveSites db hostname port := mem_resolveSites.2 hdcand
    have hle := head_rank_min hE d hdmem
    rw [h3, hrank_d] at hle
    unfold MATCH_HOSTNAME MATCH_DEFAULT at hle
    omega
  have hsites_nodup : (resolveSites db hostname port).Nodup :=
    (resolveSites_perm db hostname port).nodup_iff.2 hcand_nodup
  have hrank_s0 : matchRank hostname port s0 = MATCH_DEFAULT := by
    rw [hs0]; exact hrank_d
  have hrest_len : rest.length = (db.filter (fun s => s.hostname == hostname)).length := by
    rw [hE] at hsites_len
    simpa using hsites_len
  constructor
  · intro m hm
    obtain ⟨s1, hrest⟩ : ∃ s1, rest = [s1] := by
      rw [hm] at hrest_len
      cases rest with
      | nil => simp at hrest_len
      | cons a t =>
        cases t with
        | nil => exact ⟨a, rfl⟩
        | cons b u => simp at hrest_len
    have hs1mem : s1 ∈ resolveSites db hostname port := by
      rw [hE, hrest]; simp
    have hs1cand := mem_resolveSites.1 hs1mem
    have hs0notin : s0 ∉ rest := by
      rw [hE] at hsites_nodup
      exact (List.nodup_cons.1 hsites_nodup).1
    have hs1ne : s1 ≠ d := by
      intro he
      apply hs0notin
      rw [hrest, hs0, he]
      exact List.mem_cons_self _ _
    obtain ⟨hs1h, _, hs1db⟩ := hcand_char s1 hs1cand hs1ne
    have hs1m : s1 ∈ db.filter (fun s => s.hostname == hostname) := by
      simp [List.mem_filter, hs1db, hs1h]
    rw [hm] at hs1m
    have hs1eq : s1 = m := by simpa using hs1m
    have hcond : ¬([s1] = [] ∨ matchRank hostname port s0 = MATCH_HOSTNAME_PORT ∨
        matchRank hostname port s0 = MATCH_HOSTNAME_DEFAULT) := by
      simp [hrank_s0, MATCH_HOSTNAME_PORT, MATCH_HOSTNAME_DEFAULT, MATCH_DEFAULT]
    simp only [get_site_for_hostname, hE, hrest]
    rw [if_neg hcond, if_pos hrank_s0]
    simp [hs1eq]
  · intro hne1
    cases hR : rest with
    | nil =>
      simp only [get_site_for_hostname, hE, hR]
      simp [hs0]
    | cons a t =>
      cases hT : t with
      | nil =>
        exfalso
        apply hne1
        rw [← hrest_len, hR, hT]
        rfl
      | cons b u =>
        have hcond : ¬(a :: b :: u = [] ∨
            matchRank hostname port s0 = MATCH_HOSTNAME_PORT ∨
            matchRank hostname port s0 = MATCH_HOSTNAME_DEFAULT) := by
          simp [hrank_s0, MATCH_HOSTNAME_PORT, MATCH_HOSTNAME_DEFAULT, MATCH_DEFAULT]
        simp only [get_site_for_hostname, hE, hR, hT]
        rw [if_neg hcond, if_pos hrank_s0]
        simp [hs0]

/-- Witness for C1: with default site `defaultSite` (hostname "other.com")
and one site on "example.com", the resolver prefers the hostname match;
adding a second "example.com" site makes the default win. -/
theorem default_prefers_single_hostname_match_witness :
    get_site_for_hostname [defaultSite, exampleSite] "example.com" 80 = some exampleSite ∧
    get_site_for_hostname [defaultSite, exampleSite, exampleSite2] "example.com" 80 =
      some defaultSite :=
  ⟨(default_prefers_single_hostname_match [defaultSite, exampleSite] "example.com" 80
      defaultSite (by decide) (by decide) (by decide) (by decide) (by decide)
      (by decide)).1 exampleSite (by decide),
    (default_prefers_single_hostname_match [defaultSite, exampleSite, exampleSite2]
      "example.com" 80 defaultSite (by decide) (by decide) (by decide) (by decide)
      (by decide) (by decide)).2 (by decide)⟩

/-- C2 counterexample: two sites share hostname "a" (ports 81 and 82) and
no default site exists.  Resolving ("a", 80) hits the fall-through
`raise Site.DoesNotExist()` — the rank-3 group has two members and no
default to fall back to — although sites matching the hostname exist.  This
refutes "NotFound iff no hostname match and no default" and its corollary
"whenever at least one tenant matches the hostname, some tenant is
returned". -/
theorem resolver_notfound_despite_hostname_match :
    get_site_for_hostname [portSiteA, portSiteB] "a" 80 = none ∧
    (∃ s ∈ [portSiteA, portSiteB], s.hostname = "a") :=
  ⟨by decide, ⟨portSiteA, by decide, by decide⟩⟩

/-- C2 (amended): the resolver reports `DoesNotExist` iff the tenant table
has no default site and, in addition, either no site matches the hostname,
or at least two sites match the hostname and none of them also matches the
port exactly. -/
theorem resolver_notfound_characterization (db : List Site) (hostname : String)
    (port : Int) :
    get_site_for_hostname db hostname port = none ↔
      ((∀ s ∈ db, s.is_default_site = false) ∧
        ((∀ s ∈ db, s.hostname ≠ hostname) ∨
          (2 ≤ (db.filter (fun s => s.hostname == hostname)).length ∧
            ∀ s ∈ db, s.hostname = hostname → s.port ≠ port))) := by
  constructor
  · intro hnone
    cases hE : resolveSites db hostname port with
    | nil =>
      have hcand : candidates db hostname = [] := by
        have hperm := resolveSites_perm db hostname port
        rw [hE] at hperm
        exact hperm.symm.eq_nil
      have hforall : ∀ s ∈ db, ¬((s.hostname == hostname || s.is_default_site) = true) := by
        unfold candidates at hcand
        exact List.filter_eq_nil_iff.1 hcand
      constructor
      · intro s hs
        cases hb : s.is_default_site with
        | false => rfl
        | true => exact absurd (by simp [hb]) (hforall s hs)
      · left
        intro s hs heq
        exact (hforall s hs) (by simp [heq])
    | cons s0 rest =>
      have hdef := hnone
      simp only [get_site_for_hostname, hE] at hdef
      by_cases hc1 : (rest = [] ∨ matchRank hostname port s0 = MATCH_HOSTNAME_PORT ∨
          matchRank hostname port s0 = MATCH_HOSTNAME_DEFAULT)
      · rw [if_pos hc1] at hdef; cases hdef
      · rw [if_neg hc1] at hdef
        by_cases hc2 : matchRank hostname port s0 = MATCH_DEFAULT
        · rw [if_pos hc2] at hdef
          exfalso
          cases rest with
          | nil => simp at hdef
          | cons a t =>
            cases t with
            | nil => simp at hdef
            | cons b u => simp at hdef
        · rw [if_neg hc2] at hdef
          push_neg at hc1
          obtain ⟨hrest_ne, hr0, hr1⟩ := hc1
          have hrank3 : matchRank hostname port s0 = MATCH_HOSTNAME := by
            have h3 := matchRank_le_three hostname port s0
            have e0 : MATCH_HOSTNAME_PORT = 0 := rfl
            have e1 : MATCH_HOSTNAME_DEFAULT = 1 := rfl
            have e2 : MATCH_DEFAULT = 2 := rfl
            have e3 : MATCH_HOSTNAME = 3 := rfl
            rw [e0] at hr0
            rw [e1] at hr1
            rw [e2] at hc2
            rw [e3]
            omega
          have hall3 : ∀ s ∈ resolveSites db hostname port,
              matchRank hostname port s = MATCH_HOSTNAME := by
            intro s hs
            have h1 := head_rank_min hE s hs
            rw [hrank3] at h1
            have h2 := matchRank_le_three hostname port s
            have e3 : MATCH_HOSTNAME = 3 := rfl
            rw [e3] at h1 ⊢
            omega
          have hnodefault : ∀ s ∈ db, s.is_default_site = false := by
            intro s hs
            cases hb : s.is_default_site with
            | false => rfl
            | true =>
              have hsc : s ∈ candidates db hostname := mem_candidates.2 ⟨hs, Or.inr hb⟩
              obtain ⟨hq, _⟩ := matchRank_three_elim (hall3 s (mem_resolveSites.2 hsc))
              rw [hb] at hq
              cases hq
          refine ⟨hnodefault, Or.inr ⟨?_, ?_⟩⟩
          · have hcand_eq : candidates db hostname =
                db.filter (fun s => s.hostname == hostname) := by
              unfold candidates
              apply List.filter_congr
              intro s hs
              simp [hnodefault s hs]
            have hlen : (resolveSites db hostname port).length =
                (db.filter (fun s => s.hostname == hostname)).length := by
              rw [length_resolveSites, hcand_eq]
            rw [← hlen, hE]
            cases rest with
            | nil => exact absurd rfl hrest_ne
            | cons a t => simp
          · intro s hs hmatch hport
            have hsc : s ∈ candidates db hostname := mem_candidates.2 ⟨hs, Or.inl hmatch⟩
            obtain ⟨_, hnq⟩ := matchRank_three_elim (hall3 s (mem_resolveSites.2 hsc))
            exact hnq ⟨hmatch, hport⟩
  · rintro ⟨hnodef, hcase⟩
    rcases hcase with hnomatch | ⟨hlen2, hnoexact⟩
    · have hcand : candidates db hostname = [] := by
        unfold candidates
        rw [List.filter_eq_nil_iff]
        intro s hs
        simp [hnomatch s hs, hnodef s hs]
      have hE : resolveSites db hostname port = [] := by
        unfold resolveSites
        rw [hcand]
        rfl
      simp [get_site_for_hostname, hE]
    · have hcand_eq : candidates db hostname =
          db.filter (fun s => s.hostname == hostname) := by
        unfold candidates
        apply List.filter_congr
        intro s hs
        simp [hnodef s hs]
      have hall3 : ∀ s ∈ resolveSites db hostname port,
          matchRank hostname port s = MATCH_HOSTNAME := by
        intro s hs
        obtain ⟨hsdb, hor⟩ := mem_candidates.1 (mem_resolveSites.1 hs)
        have hmatch : s.hostname = hostname := by
          rcases hor with h | h
          · exact h
          · rw [hnodef s hsdb] at h; cases h
        exact matchRank_of_plain_hostname (hnodef s hsdb)
          (fun hc => hnoexact s hsdb hc.1 hc.2)

      have hlen : 2 ≤ (resolveSites db hostname port).length := by
        rw [length_resolveSites, hcand_eq]
        exact hlen2
      obtain ⟨s0, s1, t, hE⟩ : ∃ s0 s1 t, resolveSites db hostname port = s0 :: s1 :: t := by
        rcases h1 : resolveSites db hostname port with _ | ⟨a, _ | ⟨b, v⟩⟩
        · rw [h1] at hlen; simp at hlen
        · rw [h1] at hlen; simp at hlen
        · exact ⟨a, b, v, rfl⟩
      have hrank_s0 : matchRank hostname port s0 = MATCH_HOSTNAME :=
        hall3 s0 (by rw [hE]; exact List.mem_cons_self _ _)
      have hcond1 : ¬(s1 :: t = [] ∨ matchRank hostname port s0 = MATCH_HOSTNAME_PORT ∨
          matchRank hostname port s0 = MATCH_HOSTNAME_DEFAULT) := by
        simp [hrank_s0, MATCH_HOSTNAME, MATCH_HOSTNAME_PORT, MATCH_HOSTNAME_DEFAULT]
      have hcond2 : ¬(matchRank hostname port s0 = MATCH_DEFAULT) := by
        simp [hrank_s0, MATCH_HOSTNAME, MATCH_DEFAULT]
      simp only [get_site_for_hostname, hE]
      rw [if_neg hcond1, if_neg hcond2]

/-- Witness for the amended C2: the characterization instantiated on the
two-sites-one-hostname table. -/
theorem resolver_notfound_characterization_witness :
    get_site_for_hostname [portSiteA, portSiteB] "a" 80 = none ↔
      ((∀ s ∈ [portSiteA, portSiteB], s.is_default_site = false) ∧
        ((∀ s ∈ [portSiteA, portSiteB], s.hostname ≠ "a") ∨
          (2 ≤ ([portSiteA, portSiteB].filter (fun s => s.hostname == "a")).length ∧
            ∀ s ∈ [portSiteA, portSiteB], s.hostname = "a" → s.port ≠ 80))) :=
  resolver_notfound_characterization [portSiteA, portSiteB] "a" 80

end WagtailSites
